import Mathlib

/-!
Verification of run_benchmark.py (RPi-Storage-Benchmarking).

The program is a disk benchmarking harness.  We give a shallow embedding of
its pure content: Python strings are modelled as lists of characters
(all the strings involved are ASCII, so Python len agrees with byte length),
machine floats are modelled as rationals, wall-clock times are passed in as
explicit rational parameters, and the filesystem and subprocess effects are
made explicit (the fio stdout is a parameter; files are values).
-/

/-- Python str modelled as a list of characters. -/
abbrev Chars := List Char

/-! ### Python string primitives

These model the exact Python string operations used by run_benchmark.py:
the membership check `pat in s`, `s.split(sep)`, `s.split()` (whitespace),
`s.splitlines()`, `s.replace(pat, rep)`, `s.strip()` and the decimal
fragment of `float(s)`.  Multi-character splitting and replacement consume
at least one character per step, so a fuel of `length + 1` makes them total
structural recursions that the kernel can evaluate. -/

/-- Python substring membership: pat in s. -/
def hasSub (pat : Chars) : Chars → Bool
  | [] => pat.isEmpty
  | c :: r => pat.isPrefixOf (c :: r) || hasSub pat r

/-- Split at every character satisfying p, keeping empty pieces
(the single-character analogue of Python str.split(sep)). -/
def splitBy (p : Char → Bool) : Chars → List Chars
  | [] => [[]]
  | c :: r =>
    if p c then [] :: splitBy p r
    else
      match splitBy p r with
      | [] => [[c]]
      | t :: ts => (c :: t) :: ts

/-- Fuel-driven worker for Python str.split(sep) with a multi-character
separator; each step consumes at least one character. -/
def splitOnFuel (sep : Chars) : ℕ → Chars → List Chars
  | 0, s => [s]
  | fuel + 1, s =>
    if sep.isPrefixOf s then [] :: splitOnFuel sep fuel (s.drop sep.length)
    else
      match s with
      | [] => [[]]
      | c :: r =>
        match splitOnFuel sep fuel r with
        | [] => [[c]]
        | t :: ts => (c :: t) :: ts

/-- Python s.split(sep) for a non-empty separator. -/
def pySplitOn (s sep : Chars) : List Chars :=
  if sep.isEmpty then [s] else splitOnFuel sep (s.length + 1) s

/-- Fuel-driven worker for Python str.replace. -/
def replaceFuel (pat rep : Chars) : ℕ → Chars → Chars
  | 0, s => s
  | fuel + 1, s =>
    if pat.isPrefixOf s then rep ++ replaceFuel pat rep fuel (s.drop pat.length)
    else
      match s with
      | [] => []
      | c :: r => c :: replaceFuel pat rep fuel r

/-- Python s.replace(pat, rep) for a non-empty pattern. -/
def pyReplace (s pat rep : Chars) : Chars :=
  if pat.isEmpty then s else replaceFuel pat rep (s.length + 1) s

/-- Python s.strip(): drop leading and trailing whitespace. -/
def pyStrip (s : Chars) : Chars :=
  ((s.dropWhile Char.isWhitespace).reverse.dropWhile Char.isWhitespace).reverse

/-- Python s.split() with no argument: whitespace-separated tokens,
empty tokens discarded. -/
def pySplitWs (s : Chars) : List Chars :=
  (splitBy Char.isWhitespace s).filter (fun t => !t.isEmpty)

/-- Drop the trailing empty piece, as Python str.splitlines does. -/
def dropTrailingEmpty : List Chars → List Chars
  | [] => []
  | [t] => if t.isEmpty then [] else [t]
  | t :: r => t :: dropTrailingEmpty r

/-- Python s.splitlines() (newline-terminated lines; the sources involved
use only the line feed terminator). -/
def splitlinesL (s : Chars) : List Chars :=
  dropTrailingEmpty (splitBy (fun c => c == '\n') s)

/-- Numeric value of a string of decimal digits (Horner fold). -/
def digitsToNat (s : Chars) : ℕ :=
  s.foldl (fun n c => n * 10 + (c.toNat - 48)) 0

/-- All characters are decimal digits. -/
def allDigits (s : Chars) : Bool :=
  s.all Char.isDigit

/-- The decimal fragment of Python float(s): an optionally dotted unsigned
decimal numeral (the only shape fio bandwidth values take).  Other inputs
are rejected, as float() rejects malformed numerals. -/
def pyFloat (s : Chars) : Option ℚ :=
  match splitBy (fun c => c == '.') s with
  | [ip] => if allDigits ip && !ip.isEmpty then some (digitsToNat ip) else none
  | [ip, fp] =>
    if allDigits ip && allDigits fp && !(ip.isEmpty && fp.isEmpty) then
      some ((digitsToNat ip : ℚ) + (digitsToNat fp : ℚ) / 10 ^ fp.length)
    else none
  | _ => none

/-! ### run_fio_test (run_benchmark.py lines 12-74)

The subprocess call is opaque to the program; its stdout is the function's
real input, so the model takes the stdout text.  The parse loop is
lines 62-74.  Machine floats are modelled as rationals.  A Python runtime
error is modelled as an explicit error value: indexError for the
`.split()[0]` on a line whose part after the marker is only whitespace,
valueError for a float() on a malformed numeral, and unboundLocal for the
`return bandwidth` reached with neither unit branch taken. -/

/-- Runtime errors the parse loop of run_fio_test can raise. -/
inductive FioError
  | unboundLocal
  | indexError
  | valueError
deriving DecidableEq

/-- Characters of the bandwidth marker. -/
def bwMarker : Chars := "BW=".data

/-- Characters of the binary unit suffix. -/
def miBChars : Chars := "MiB".data

/-- Characters of the decimal unit suffix. -/
def mBChars : Chars := "MB".data

/-- Characters of the per-second suffix. -/
def perSecChars : Chars := "/s".data

/-- The fixed conversion ratio mib_to_mb = float(1024) / float(1000). -/
def mibToMb : ℚ := 1024 / 1000

/-- Line 67: bw_value = line.split("BW=")[1].split()[0].replace("/s", "").strip().
None when the indexing raises. -/
def extractBwValue (line : Chars) : Option Chars :=
  ((pySplitOn line bwMarker).get? 1).bind fun after =>
    ((pySplitWs after).head?).map fun tok =>
      pyStrip (pyReplace tok perSecChars [])

/-- Lines 67-73: the body of the loop for a line containing the marker. -/
def processBwLine (line : Chars) : Except FioError ℚ :=
  match extractBwValue line with
  | none => .error .indexError
  | some bwValue =>
    if hasSub miBChars bwValue then
      match pyFloat (pyStrip (pyReplace bwValue miBChars [])) with
      | some q => .ok (q * mibToMb)
      | none => .error .valueError
    else if hasSub mBChars bwValue then
      match pyFloat (pyStrip (pyReplace bwValue mBChars [])) with
      | some q => .ok q
      | none => .error .valueError
    else .error .unboundLocal

/-- Lines 65-74: scan the lines for the first one containing "BW=". -/
def fioScanLines : List Chars → Except FioError ℚ
  | [] => .ok 0
  | line :: rest =>
    if hasSub bwMarker line then processBwLine line else fioScanLines rest

/-- run_fio_test, as a function of the fio stdout it parses. -/
def run_fio_test (output : Chars) : Except FioError ℚ :=
  fioScanLines (splitlinesL output)

/-- The first line of the output containing the bandwidth marker. -/
def firstBwLine (output : Chars) : Option Chars :=
  (splitlinesL output).find? (fun l => hasSub bwMarker l)

/-! ### Lemmas about the parse loop -/

/-- If no line contains the marker, the scan falls through to return 0.0. -/
lemma fioScanLines_all_miss (ls : List Chars)
    (h : ∀ l ∈ ls, hasSub bwMarker l = false) : fioScanLines ls = .ok 0 := by
  induction ls with
  | nil => rfl
  | cons a r ih =>
    have ha : hasSub bwMarker a = false := h a (List.mem_cons_self a r)
    have hr := ih (fun l hl => h l (List.mem_cons_of_mem a hl))
    simp [fioScanLines, ha, hr]

/-- The scan is determined by the first line containing the marker. -/
lemma fioScanLines_find (ls : List Chars) (line : Chars)
    (h : ls.find? (fun l => hasSub bwMarker l) = some line) :
    fioScanLines ls = processBwLine line := by
  induction ls with
  | nil => simp [List.find?] at h
  | cons a r ih =>
    cases hb : hasSub bwMarker a with
    | true =>
      rw [List.find?_cons_of_pos _ hb] at h
      injection h with h
      subst h
      simp [fioScanLines, hb]
    | false =>
      rw [List.find?_cons_of_neg _ (by simp [hb])] at h
      simp only [fioScanLines, hb, Bool.false_eq_true, if_false]
      exact ih h

/-- pyFloat evaluates the numeral 12.3 to 123/10. -/
lemma pyFloat_12_3 : pyFloat "12.3".data = some ((123 : ℚ) / 10) := by
  have h : splitBy (fun c => c == '.') "12.3".data = ["12".data, "3".data] := by decide
  have h1 : digitsToNat "12".data = 12 := by decide
  have h2 : digitsToNat "3".data = 3 := by decide
  have h3 : ("3".data).length = 1 := by decide
  have hc : (allDigits "12".data && allDigits "3".data &&
      !("12".data.isEmpty && "3".data.isEmpty)) = true := by decide
  rw [pyFloat, h]
  simp only [hc, if_true, h1, h2, h3]
  norm_num

/-- pyFloat evaluates the numeral 7 to 7. -/
lemma pyFloat_7 : pyFloat "7".data = some (7 : ℚ) := by
  have h : splitBy (fun c => c == '.') "7".data = ["7".data] := by decide
  have h1 : digitsToNat "7".data = 7 := by decide
  have hc : (allDigits "7".data && !("7".data.isEmpty)) = true := by decide
  rw [pyFloat, h]
  simp only [hc, if_true, h1]
  norm_num

/-- pyFloat evaluates the numeral 2.5 to 5/2. -/
lemma pyFloat_2_5 : pyFloat "2.5".data = some ((5 : ℚ) / 2) := by
  have h : splitBy (fun c => c == '.') "2.5".data = ["2".data, "5".data] := by decide
  have h1 : digitsToNat "2".data = 2 := by decide
  have h2 : digitsToNat "5".data = 5 := by decide
  have h3 : ("5".data).length = 1 := by decide
  have hc : (allDigits "2".data && allDigits "5".data &&
      !("2".data.isEmpty && "5".data.isEmpty)) = true := by decide
  rw [pyFloat, h]
  simp only [hc, if_true, h1, h2, h3]
  norm_num

/-- C1: on output whose first BW= line carries a MiB value, run_fio_test
returns the numeric value times 1024/1000; on an MB value (without MiB) it
returns the numeric value exactly; BW=12.3MiB/s yields 12.3 * 1024/1000 and
BW=12.3MB/s yields exactly 12.3; the first BW= line determines the result. -/
theorem run_fio_test_c1 :
    (∀ (out line v : Chars) (q : ℚ),
      firstBwLine out = some line →
      extractBwValue line = some v →
      ((hasSub miBChars v = true →
          pyFloat (pyStrip (pyReplace v miBChars [])) = some q →
          run_fio_test out = .ok (q * (1024 / 1000)))
        ∧ (hasSub miBChars v = false → hasSub mBChars v = true →
          pyFloat (pyStrip (pyReplace v mBChars [])) = some q →
          run_fio_test out = .ok q)))
    ∧ run_fio_test "BW=12.3MiB/s".data = .ok ((123 / 10) * (1024 / 1000))
    ∧ run_fio_test "BW=12.3MB/s".data = .ok (123 / 10)
    ∧ run_fio_test "fio: BW=7MB/s\nnext: BW=9MiB/s".data = .ok 7 := by
  have hgen : ∀ (out line v : Chars) (q : ℚ),
      firstBwLine out = some line →
      extractBwValue line = some v →
      ((hasSub miBChars v = true →
          pyFloat (pyStrip (pyReplace v miBChars [])) = some q →
          run_fio_test out = .ok (q * (1024 / 1000)))
        ∧ (hasSub miBChars v = false → hasSub mBChars v = true →
          pyFloat (pyStrip (pyReplace v mBChars [])) = some q →
          run_fio_test out = .ok q)) := by
    intro out line v q h1 h2
    have hrun : run_fio_test out = processBwLine line := fioScanLines_find _ _ h1
    constructor
    · intro hmib hq
      rw [hrun]
      simp [processBwLine, h2, hmib, hq, mibToMb]
    · intro hmib hmb hq
      rw [hrun]
      simp [processBwLine, h2, hmib, hmb, hq]
  refine ⟨hgen, ?_, ?_, ?_⟩
  · have he : pyStrip (pyReplace "12.3MiB".data miBChars []) = "12.3".data := by decide
    have hq : pyFloat (pyStrip (pyReplace "12.3MiB".data miBChars [])) =
        some ((123 : ℚ) / 10) := by rw [he]; exact pyFloat_12_3
    exact (hgen "BW=12.3MiB/s".data "BW=12.3MiB/s".data "12.3MiB".data _ (by decide) (by decide)).1 (by decide) hq
  · have he : pyStrip (pyReplace "12.3MB".data mBChars []) = "12.3".data := by decide
    have hq : pyFloat (pyStrip (pyReplace "12.3MB".data mBChars [])) =
        some ((123 : ℚ) / 10) := by rw [he]; exact pyFloat_12_3
    exact (hgen "BW=12.3MB/s".data "BW=12.3MB/s".data "12.3MB".data _ (by decide) (by decide)).2 (by decide) (by decide) hq
  · have he : pyStrip (pyReplace "7MB".data mBChars []) = "7".data := by decide
    have hq : pyFloat (pyStrip (pyReplace "7MB".data mBChars [])) =
        some (7 : ℚ) := by rw [he]; exact pyFloat_7
    exact (hgen "fio: BW=7MB/s\nnext: BW=9MiB/s".data "fio: BW=7MB/s".data "7MB".data _ (by decide) (by decide)).2 (by decide) (by decide) hq

/-- Witness for C1 at a concrete fio-style output line. -/
theorem run_fio_test_c1_witness :
    run_fio_test "disk: BW=2.5MiB/s ok".data = .ok ((5 / 2) * (1024 / 1000)) := by
  have he : pyStrip (pyReplace "2.5MiB".data miBChars []) = "2.5".data := by decide
  have hq : pyFloat (pyStrip (pyReplace "2.5MiB".data miBChars [])) =
      some ((5 : ℚ) / 2) := by rw [he]; exact pyFloat_2_5
  exact (run_fio_test_c1.1 "disk: BW=2.5MiB/s ok".data "disk: BW=2.5MiB/s ok".data
    "2.5MiB".data ((5 : ℚ) / 2) (by decide) (by decide)).1 (by decide) hq

/-- C5: on output in which no line contains BW=, run_fio_test returns 0.0
rather than raising. -/
theorem run_fio_test_c5 (out : Chars)
    (h : ∀ line ∈ splitlinesL out, hasSub bwMarker line = false) :
    run_fio_test out = .ok 0 :=
  fioScanLines_all_miss _ h

/-- Witness for C5 on a concrete markerless output. -/
theorem run_fio_test_c5_witness :
    run_fio_test "fio failed\nno bandwidth reported".data = .ok 0 :=
  run_fio_test_c5 _ (by decide)

/-- C6: when the first BW= line carries a value with neither MiB nor MB in
it, the return statement reads the never-assigned local, so run_fio_test
ends in the unbound-local error rather than producing a number. -/
theorem run_fio_test_c6 :
    (∀ (out line v : Chars),
      firstBwLine out = some line →
      extractBwValue line = some v →
      hasSub miBChars v = false → hasSub mBChars v = false →
      run_fio_test out = .error .unboundLocal)
    ∧ run_fio_test "  write: IOPS=10k, BW=3.2GiB/s (3.4GB/s)".data =
        .error .unboundLocal := by
  have hgen : ∀ (out line v : Chars),
      firstBwLine out = some line →
      extractBwValue line = some v →
      hasSub miBChars v = false → hasSub mBChars v = false →
      run_fio_test out = .error .unboundLocal := by
    intro out line v h1 h2 hmib hmb
    have hrun : run_fio_test out = processBwLine line := fioScanLines_find _ _ h1
    rw [hrun]
    simp [processBwLine, h2, hmib, hmb]
  refine ⟨hgen, ?_⟩
  exact hgen "  write: IOPS=10k, BW=3.2GiB/s (3.4GB/s)".data
    "  write: IOPS=10k, BW=3.2GiB/s (3.4GB/s)".data "3.2GiB".data
    (by decide) (by decide) (by decide) (by decide)

/-- Witness for C6 on a concrete KiB-valued output. -/
theorem run_fio_test_c6_witness :
    run_fio_test "BW=900KiB/s".data = .error .unboundLocal :=
  run_fio_test_c6.1 "BW=900KiB/s".data "BW=900KiB/s".data "900KiB".data
    (by decide) (by decide) (by decide) (by decide)

/-! ### write_csv_test (run_benchmark.py lines 77-106)

The loop body is pure: the file receives the header and then the records
in order, while bytes_written accumulates each string's length.  The loop
adds at least 11 bytes per iteration, so target fuel steps more than
suffice; the fuel-sufficiency facts are proved below rather than assumed.
The wall-clock elapsed time is a parameter of the model. -/

/-- Characters of the header line written first (line 89). -/
def headerChars : Chars := "id,name\n".data

/-- Characters of the record written for index i (line 95). -/
def recordChars (i : ℕ) : Chars :=
  (Nat.repr i).data ++ ",sample_".data ++ (Nat.repr i).data ++ ['\n']

/-- Lines 93-98: the while loop, as the list of records it writes.
Arguments: fuel, size_in_bytes, bytes_written, i. -/
def write_csv_records : ℕ → ℕ → ℕ → ℕ → List Chars
  | 0, _, _, _ => []
  | fuel + 1, target, bytesWritten, i =>
    if bytesWritten < target then
      recordChars i ::
        write_csv_records fuel target (bytesWritten + (recordChars i).length) (i + 1)
    else []

/-- The full file contents write_csv_test produces for a target byte count. -/
def write_csv_content (target : ℕ) : Chars :=
  headerChars ++ (write_csv_records target target headerChars.length 0).flatten

/-- Lines 100-106: the returned value, actual file size in MB over the
elapsed seconds. -/
def write_csv_test (target : ℕ) (elapsed : ℚ) : ℚ :=
  (((write_csv_content target).length : ℚ) / (1024 * 1024)) / elapsed

/-- Nat.toDigitsCore never shrinks its accumulator. -/
lemma toDigitsCore_len_le (b : ℕ) : ∀ (fuel n : ℕ) (ds : List Char),
    ds.length ≤ (Nat.toDigitsCore b fuel n ds).length := by
  intro fuel
  induction fuel with
  | zero => intro n ds; simp [Nat.toDigitsCore]
  | succ f ih =>
    intro n ds
    simp only [Nat.toDigitsCore]
    by_cases h : n / b = 0
    · simp [h]
    · simp only [h, if_false]
      exact le_trans (by simp) (ih (n / b) (Nat.digitChar (n % b) :: ds))

/-- The decimal numeral of a natural number has at least one digit. -/
lemma one_le_repr_len (n : ℕ) : 1 ≤ ((Nat.repr n).data).length := by
  have hdata : (Nat.repr n).data = Nat.toDigits 10 n := rfl
  rw [hdata, Nat.toDigits]
  simp only [Nat.toDigitsCore]
  by_cases h : n / 10 = 0
  · simp [h]
  · simp only [h, if_false]
    exact le_trans (by simp) (toDigitsCore_len_le 10 n (n / 10) [Nat.digitChar (n % 10)])

/-- Length of the record for index i in terms of its numeral. -/
lemma recordChars_length (i : ℕ) :
    (recordChars i).length = 2 * ((Nat.repr i).data).length + 9 := by
  have h8 : (",sample_".data).length = 8 := by decide
  simp [recordChars, h8]
  omega

/-- Every record is at least 11 bytes, the length of 0,sample_0 plus the
line feed. -/
lemma eleven_le_recordChars_length (i : ℕ) : 11 ≤ (recordChars i).length := by
  have := one_le_repr_len i
  rw [recordChars_length]
  omega

/-- With sufficient fuel, the loop exits only once the byte counter has
reached the target. -/
lemma write_csv_records_sum (fuel target bw i : ℕ) (hfuel : target - bw ≤ fuel) :
    target ≤ bw + ((write_csv_records fuel target bw i).map List.length).sum := by
  induction fuel generalizing bw i with
  | zero =>
    simp only [write_csv_records, List.map_nil, List.sum_nil]
    omega
  | succ f ih =>
    by_cases h : bw < target
    · simp only [write_csv_records, h, if_true, List.map_cons, List.sum_cons]
      have hlen := eleven_le_recordChars_length i
      have hr := ih (bw + (recordChars i).length) (i + 1) (by omega)
      omega
    · simp only [write_csv_records, h, if_false, List.map_nil, List.sum_nil]
      omega

/-- The records written are the consecutively numbered ones from the start
index on. -/
lemma write_csv_records_range (fuel target bw i : ℕ) :
    ∃ k, write_csv_records fuel target bw i = (List.range' i k).map recordChars := by
  induction fuel generalizing bw i with
  | zero => exact ⟨0, by simp [write_csv_records]⟩
  | succ f ih =>
    by_cases h : bw < target
    · obtain ⟨k, hk⟩ := ih (bw + (recordChars i).length) (i + 1)
      refine ⟨k + 1, ?_⟩
      simp only [write_csv_records, h, if_true, hk, List.range'_succ, List.map_cons]
    · exact ⟨0, by simp [write_csv_records, h]⟩

/-- The loop performs at most target - bytes_written iterations. -/
lemma write_csv_records_count (fuel target bw i : ℕ) :
    (write_csv_records fuel target bw i).length ≤ target - bw := by
  induction fuel generalizing bw i with
  | zero => simp [write_csv_records]
  | succ f ih =>
    by_cases h : bw < target
    · simp only [write_csv_records, h, if_true, List.length_cons]
      have hlen := eleven_le_recordChars_length i
      have hr := ih (bw + (recordChars i).length) (i + 1)
      omega
    · simp [write_csv_records, h]

/-- Before each record is written the byte counter is still short of the
target: the loop stops as soon as the counter reaches the target. -/
lemma write_csv_records_take (fuel target bw i : ℕ) :
    ∀ j < (write_csv_records fuel target bw i).length,
      bw + (((write_csv_records fuel target bw i).take j).map List.length).sum < target := by
  induction fuel generalizing bw i with
  | zero => simp [write_csv_records]
  | succ f ih =>
    by_cases h : bw < target
    · simp only [write_csv_records, h, if_true]
      intro j hj
      cases j with
      | zero => simpa using h
      | succ j =>
        simp only [List.take_succ_cons, List.map_cons, List.sum_cons]
        have hr := ih (bw + (recordChars i).length) (i + 1) j
          (by simpa using Nat.lt_of_succ_lt_succ (by simpa using hj))
        omega
    · simp [write_csv_records, h]

/-- File size decomposition: header plus the records. -/
lemma write_csv_content_length (target : ℕ) :
    (write_csv_content target).length = headerChars.length +
      ((write_csv_records target target headerChars.length 0).map List.length).sum := by
  simp [write_csv_content, List.length_flatten]

/-- C2: write_csv_test writes the header followed by consecutively numbered
complete records starting at 0, stops as soon as the byte counter reaches
the target, so the file is at least the target size, and its returned
throughput (actual size in MB over elapsed seconds) is strictly positive
for positive elapsed time. -/
theorem write_csv_test_c2 (target : ℕ) (elapsed : ℚ) (hel : 0 < elapsed) :
    (∃ k, write_csv_content target =
        headerChars ++ ((List.range' 0 k).map recordChars).flatten) ∧
    target ≤ (write_csv_content target).length ∧
    (∀ j < (write_csv_records target target headerChars.length 0).length,
      headerChars.length +
        (((write_csv_records target target headerChars.length 0).take j).map
          List.length).sum < target) ∧
    0 < write_csv_test target elapsed := by
  refine ⟨?_, ?_, ?_, ?_⟩
  · obtain ⟨k, hk⟩ := write_csv_records_range target target headerChars.length 0
    exact ⟨k, by rw [write_csv_content, hk]⟩
  · rw [write_csv_content_length]
    exact write_csv_records_sum target target headerChars.length 0 (Nat.sub_le _ _)
  · exact write_csv_records_take target target headerChars.length 0
  · have hpos : 0 < (write_csv_content target).length := by
      rw [write_csv_content_length]
      have h8 : headerChars.length = 8 := by decide
      omega
    have hq : (0 : ℚ) < ((write_csv_content target).length : ℚ) := by
      exact_mod_cast hpos
    exact div_pos (div_pos hq (by norm_num)) hel

/-- Witness for C2 at target 30 bytes and one elapsed second. -/
theorem write_csv_test_c2_witness :
    (0 : ℚ) < 1 ∧
    ((∃ k, write_csv_content 30 =
        headerChars ++ ((List.range' 0 k).map recordChars).flatten) ∧
    30 ≤ (write_csv_content 30).length ∧
    (∀ j < (write_csv_records 30 30 headerChars.length 0).length,
      headerChars.length +
        (((write_csv_records 30 30 headerChars.length 0).take j).map
          List.length).sum < 30) ∧
    0 < write_csv_test 30 1) :=
  ⟨by norm_num, write_csv_test_c2 30 1 (by norm_num)⟩

/-- C10: each loop iteration of write_csv_test appends a record of at
least 11 bytes, so the byte counter strictly grows; the loop runs at most
target iterations and exits with the counter at or past the target. -/
theorem write_csv_records_c10 :
    (∀ i, 11 ≤ (recordChars i).length) ∧
    (∀ target, (write_csv_records target target headerChars.length 0).length ≤ target ∧
      target ≤ headerChars.length +
        ((write_csv_records target target headerChars.length 0).map List.length).sum) :=
  ⟨eleven_le_recordChars_length, fun target =>
    ⟨le_trans (write_csv_records_count target target headerChars.length 0) (Nat.sub_le _ _),
     write_csv_records_sum target target headerChars.length 0 (Nat.sub_le _ _)⟩⟩

/-! ### read_csv_test (run_benchmark.py lines 109-123)

The file is modelled as an optional value: none when the path does not
exist, in which case the initial stat raises; otherwise the scan consumes
every line and the returned value is the stat size in MB (taken before the
read) over the elapsed seconds.  The model returns the consumed lines
alongside the value. -/

/-- Throughput of a scan of a file of the given byte size. -/
def read_csv_value (bytes : ℕ) (elapsed : ℚ) : ℚ :=
  ((bytes : ℚ) / (1024 * 1024)) / elapsed

/-- read_csv_test: stat, read every line, return size in MB over elapsed
seconds; a missing file makes the initial stat raise. -/
def read_csv_test (file : Option Chars) (elapsed : ℚ) :
    Except Unit (List Chars × ℚ) :=
  match file with
  | none => .error ()
  | some content => .ok (splitlinesL content, read_csv_value content.length elapsed)

/-- C8: read_csv_test raises exactly when the file is missing; on an
existing file it consumes every line and returns the pre-scan stat size in
MB over the elapsed seconds, strictly positive for a non-empty file and
positive elapsed time. -/
theorem read_csv_test_c8 (file : Option Chars) (elapsed : ℚ) :
    ((∃ e, read_csv_test file elapsed = .error e) ↔ file = none) ∧
    (∀ content, file = some content →
      read_csv_test file elapsed =
        .ok (splitlinesL content, ((content.length : ℚ) / (1024 * 1024)) / elapsed)) ∧
    (∀ content, file = some content → 0 < content.length → 0 < elapsed →
      ∃ seen v, read_csv_test file elapsed = .ok (seen, v) ∧ 0 < v) := by
  refine ⟨?_, ?_, ?_⟩
  · cases file with
    | none => simp [read_csv_test]
    | some content => simp [read_csv_test]
  · intro content hf
    subst hf
    simp [read_csv_test, read_csv_value]
  · intro content hf hlen hel
    subst hf
    refine ⟨splitlinesL content, read_csv_value content.length elapsed, rfl, ?_⟩
    have hq : (0 : ℚ) < (content.length : ℚ) := by exact_mod_cast hlen
    exact div_pos (div_pos hq (by norm_num)) hel

/-- Witness for C8 on a concrete two-line file. -/
theorem read_csv_test_c8_witness :
    0 < ("id,name\n0,sample_0\n".data).length ∧ (0 : ℚ) < 1 ∧
    (∃ seen v, read_csv_test (some "id,name\n0,sample_0\n".data) 1 = .ok (seen, v) ∧
      0 < v) :=
  ⟨by decide, by norm_num,
    (read_csv_test_c8 (some "id,name\n0,sample_0\n".data) 1).2.2
      "id,name\n0,sample_0\n".data rfl (by decide) (by norm_num)⟩

/-! ### The frame property of read_csv_test (C9)

Lines 116-121 perform only a stat, an open in read mode, a line iteration
and the implicit close.  We model the little file-operation language the
function could use (including the mutating operations open-for-write and
write, which truncate and append), list the operations read_csv_test
actually performs, and show running them leaves the contents unchanged. -/

/-- File operations of run_benchmark.py custom tests. -/
inductive FileOp
  | statSize
  | openRead
  | openWrite
  | readLine
  | writeStr (s : Chars)
  | closeFile
deriving DecidableEq

/-- Effect of one operation on the file contents: opening for writing
truncates, writing appends, everything else leaves the contents alone. -/
def applyOp (content : Chars) : FileOp → Chars
  | .openWrite => []
  | .writeStr s => content ++ s
  | _ => content

/-- The operations read_csv_test performs on a file with the given
contents (lines 116-121): stat, open for reading, one read per line,
close. -/
def read_csv_test_ops (content : Chars) : List FileOp :=
  [FileOp.statSize, FileOp.openRead] ++
    ((splitlinesL content).map fun _ => FileOp.readLine) ++ [FileOp.closeFile]

/-- Run a list of file operations over the contents. -/
def runFileOps (content : Chars) (ops : List FileOp) : Chars :=
  ops.foldl applyOp content

/-- Read-only operations do not change the contents. -/
lemma runFileOps_readonly (ops : List FileOp)
    (h : ∀ op ∈ ops, ∀ c : Chars, applyOp c op = c) :
    ∀ content, runFileOps content ops = content := by
  induction ops with
  | nil => intro content; rfl
  | cons op rest ih =>
    intro content
    have hop := h op (List.mem_cons_self op rest)
    have hrest := ih (fun o ho => h o (List.mem_cons_of_mem op ho))
    simp only [runFileOps, List.foldl_cons] at *
    rw [hop content, hrest content]

/-- C9: read_csv_test leaves the file contents unchanged; it opens the
file read-only and performs no mutating operation. -/
theorem read_csv_test_c9 (content : Chars) :
    runFileOps content (read_csv_test_ops content) = content ∧
    (∀ op ∈ read_csv_test_ops content,
      op ≠ FileOp.openWrite ∧ ∀ s, op ≠ FileOp.writeStr s) := by
  have hmem : ∀ op ∈ read_csv_test_ops content,
      op = FileOp.statSize ∨ op = FileOp.openRead ∨ op = FileOp.readLine ∨
        op = FileOp.closeFile := by
    intro op hop
    simp only [read_csv_test_ops, List.mem_append, List.mem_cons,
      List.mem_singleton, List.mem_map, List.not_mem_nil, or_false] at hop
    rcases hop with (h | h) | h
    · rcases h with h | h
      · exact Or.inl h
      · exact Or.inr (Or.inl h)
    · obtain ⟨_, _, h⟩ := h
      exact Or.inr (Or.inr (Or.inl h.symm))
    · exact Or.inr (Or.inr (Or.inr h))
  constructor
  · refine runFileOps_readonly _ ?_ content
    intro op hop c
    rcases hmem op hop with h | h | h | h <;> subst h <;> rfl
  · intro op hop
    rcases hmem op hop with h | h | h | h <;> subst h <;>
      exact ⟨by simp, fun s => by simp⟩

/-- Witness for C9 on a concrete file, applied at the open-for-read step. -/
theorem read_csv_test_c9_witness :
    runFileOps "id,name\n".data (read_csv_test_ops "id,name\n".data) =
      "id,name\n".data ∧
    FileOp.openRead ∈ read_csv_test_ops "id,name\n".data ∧
    FileOp.openRead ≠ FileOp.openWrite :=
  ⟨(read_csv_test_c9 "id,name\n".data).1, by decide,
    ((read_csv_test_c9 "id,name\n".data).2 FileOp.openRead (by decide)).1⟩

/-! ### run_benchmarks (run_benchmark.py lines 141-221)

The driver is a fixed sequence of calls per size and run.  The measured
quantities are environment inputs: the fio bandwidth each invocation
reports and the elapsed times of the custom tests.  The rows appended to
all_results and the parameters of every call are modelled explicitly. -/

/-- The parameters of one fio invocation. -/
structure FioParams where
  name : String
  filename : String
  block_size : String
  io_depth : ℕ
  rw_mode : String
  size : ℕ
  num_jobs : ℕ
deriving DecidableEq

/-- The measured quantities the environment supplies: the bandwidth each
fio invocation reports and the elapsed wall-clock seconds of each custom
test, indexed by size and run. -/
structure BenchEnv where
  fioBw : FioParams → ℚ
  writeElapsed : ℕ → ℕ → ℚ
  readElapsed : ℕ → ℕ → ℚ

/-- One tuple of all_results. -/
structure ResultRow where
  testType : String
  sizeMB : ℚ
  run : ℕ
  value : ℚ
deriving DecidableEq

/-- Lines 165-173: the sequential write invocation. -/
def seqWriteParams (dir : String) (size : ℕ) : FioParams :=
  ⟨"sequential_write", dir ++ "/seq_write_test", "1M", 64, "write", size, 4⟩

/-- Lines 178-180: the sequential read invocation. -/
def seqReadParams (dir : String) (size : ℕ) : FioParams :=
  ⟨"sequential_read", dir ++ "/seq_read_test", "1M", 64, "read", size, 4⟩

/-- Lines 185-193: the random write invocation. -/
def randWriteParams (dir : String) (size : ℕ) : FioParams :=
  ⟨"random_write", dir ++ "/rand_write_test", "4K", 64, "randwrite", size, 4⟩

/-- Lines 198-206: the random read invocation. -/
def randReadParams (dir : String) (size : ℕ) : FioParams :=
  ⟨"random_read", dir ++ "/rand_read_test", "4K", 64, "randread", size, 4⟩

/-- Lines 211 and 216: the per-size custom CSV file path. -/
def customCsvPath (dir : String) (size : ℕ) : String :=
  dir ++ "/custom_write_" ++ Nat.repr size ++ ".csv"

/-- Lines 164-218: the six rows appended for one size and one run, in
program order.  The custom read runs on the file the custom write just
produced, whose contents are write_csv_content size. -/
def runBody (dir : String) (env : BenchEnv) (size run : ℕ) : List ResultRow :=
  [⟨"Sequential Write", (size : ℚ) / 1024 ^ 2, run + 1, env.fioBw (seqWriteParams dir size)⟩,
   ⟨"Sequential Read", (size : ℚ) / 1024 ^ 2, run + 1, env.fioBw (seqReadParams dir size)⟩,
   ⟨"Random Write", (size : ℚ) / 1024 ^ 2, run + 1, env.fioBw (randWriteParams dir size)⟩,
   ⟨"Random Read", (size : ℚ) / 1024 ^ 2, run + 1, env.fioBw (randReadParams dir size)⟩,
   ⟨"Custom CSV Write", (size : ℚ) / 1024 ^ 2, run + 1,
     write_csv_test size (env.writeElapsed size run)⟩,
   ⟨"Custom CSV Read", (size : ℚ) / 1024 ^ 2, run + 1,
     read_csv_value (write_csv_content size).length (env.readElapsed size run)⟩]

/-- Lines 157-218: all_results after both loops. -/
def run_benchmarks (dir : String) (sizes : List ℕ) (numRuns : ℕ)
    (env : BenchEnv) : List ResultRow :=
  sizes.flatMap fun size => (List.range numRuns).flatMap fun run => runBody dir env size run

/-- One external call or custom test the driver performs. -/
inductive BenchCall
  | fio (p : FioParams)
  | customWrite (path : String) (size : ℕ)
  | customRead (path : String)
deriving DecidableEq

/-- The calls the driver performs for one size and one run, in program
order. -/
def runCalls (dir : String) (size : ℕ) : List BenchCall :=
  [BenchCall.fio (seqWriteParams dir size),
   BenchCall.fio (seqReadParams dir size),
   BenchCall.fio (randWriteParams dir size),
   BenchCall.fio (randReadParams dir size),
   BenchCall.customWrite (customCsvPath dir size) size,
   BenchCall.customRead (customCsvPath dir size)]

/-- C3: a one-size one-run config yields exactly the six rows of the body,
in the fixed order and covering all six test types; the fio invocations use
block size 1M with depth 64 for sequential, 4K with depth 64 for random,
4 jobs throughout; and the custom read targets the file the custom write
just produced. -/
theorem run_benchmarks_c3 (dir : String) (s : ℕ) (env : BenchEnv) :
    run_benchmarks dir [s] 1 env = runBody dir env s 0 ∧
    (run_benchmarks dir [s] 1 env).length = 6 ∧
    (run_benchmarks dir [s] 1 env).map ResultRow.testType =
      ["Sequential Write", "Sequential Read", "Random Write", "Random Read",
        "Custom CSV Write", "Custom CSV Read"] ∧
    runCalls dir s =
      [BenchCall.fio ⟨"sequential_write", dir ++ "/seq_write_test", "1M", 64, "write", s, 4⟩,
       BenchCall.fio ⟨"sequential_read", dir ++ "/seq_read_test", "1M", 64, "read", s, 4⟩,
       BenchCall.fio ⟨"random_write", dir ++ "/rand_write_test", "4K", 64, "randwrite", s, 4⟩,
       BenchCall.fio ⟨"random_read", dir ++ "/rand_read_test", "4K", 64, "randread", s, 4⟩,
       BenchCall.customWrite (dir ++ "/custom_write_" ++ Nat.repr s ++ ".csv") s,
       BenchCall.customRead (dir ++ "/custom_write_" ++ Nat.repr s ++ ".csv")] := by
  have hr : List.range 1 = [0] := rfl
  refine ⟨?_, ?_, ?_, rfl⟩
  · simp [run_benchmarks, hr]
  · simp [run_benchmarks, runBody, hr]
  · simp [run_benchmarks, runBody, hr]

/-! ### save_results_to_csv (run_benchmark.py lines 126-138) -/

/-- Line 133: the fixed header row. -/
def csvHeaderRow : List String :=
  ["Test Type", "Data Size (MB)", "Run", "Result (MB/s)"]

/-- The cells of one data row, the four tuple fields in order. -/
def rowCells (r : ResultRow) : List String :=
  [r.testType, toString r.sizeMB, toString r.run, toString r.value]

/-- Lines 135-138: the table written, header row then one row per record. -/
def save_results_to_csv (results : List ResultRow) : List (List String) :=
  csvHeaderRow :: results.map rowCells

/-- Line 221: the single write of the results file, after both loops. -/
def run_benchmarks_csv (dir : String) (sizes : List ℕ) (numRuns : ℕ)
    (env : BenchEnv) : List (List String) :=
  save_results_to_csv (run_benchmarks dir sizes numRuns env)

/-- C4: the table has exactly N+1 rows for N records: the fixed header
first, then the records in sequence order; and the results file of a full
benchmark run is written exactly once, from the complete record list. -/
theorem save_results_to_csv_c4 (results : List ResultRow) :
    (save_results_to_csv results).length = results.length + 1 ∧
    (save_results_to_csv results).head? = some csvHeaderRow ∧
    (save_results_to_csv results).tail = results.map rowCells ∧
    (∀ (dir : String) (sizes : List ℕ) (numRuns : ℕ) (env : BenchEnv),
      run_benchmarks_csv dir sizes numRuns env =
        save_results_to_csv (run_benchmarks dir sizes numRuns env)) :=
  ⟨by simp [save_results_to_csv], rfl, rfl, fun _ _ _ _ => rfl⟩

/-! ### The units of the custom-test rows (C7)

write_csv_test and read_csv_test return size-in-MB over elapsed-seconds,
a throughput, as their docstrings state; the driver stores those return
values while its console messages label them as times in seconds. -/

/-- An environment in which every custom test takes exactly 2 seconds. -/
def constEnv2 : BenchEnv := ⟨fun _ => 0, fun _ _ => 2, fun _ _ => 2⟩

set_option maxRecDepth 4096 in
/-- Refutation of C7 as stated: in a run with size 100 where the custom
write takes 2 seconds, the Custom CSV Write row holds write_csv_test's
return value, which is not the elapsed 2 seconds. -/
theorem run_benchmarks_c7_counterexample :
    ((run_benchmarks "d" [100] 1 constEnv2).map ResultRow.value).get? 4 =
      some (write_csv_test 100 2) ∧
    write_csv_test 100 2 ≠ constEnv2.writeElapsed 100 0 := by
  constructor
  · rfl
  · have hlen : (write_csv_content 100).length = 107 := by decide
    show ¬((((write_csv_content 100).length : ℚ) / (1024 * 1024)) / 2 = 2)
    rw [hlen]
    norm_num

/-- C7 amended: the fio rows hold the reported bandwidth in MB/s, and the
custom rows hold the custom tests' returns, which are throughputs (actual
file size in MB over elapsed seconds), not elapsed times. -/
theorem run_benchmarks_c7_amended (dir : String) (env : BenchEnv) (size run : ℕ) :
    (runBody dir env size run).map ResultRow.value =
      [env.fioBw (seqWriteParams dir size), env.fioBw (seqReadParams dir size),
       env.fioBw (randWriteParams dir size), env.fioBw (randReadParams dir size),
       (((write_csv_content size).length : ℚ) / (1024 * 1024)) /
         env.writeElapsed size run,
       (((write_csv_content size).length : ℚ) / (1024 * 1024)) /
         env.readElapsed size run] := rfl
